import Mathlib

/-!
Verification of the SmartSheet personal-finance application.

The development shallowly embeds the computational core of the
application: currency normalization (src/constants.ts), the budget and
goal evaluators and the progressive tax estimate
(src/components/PlanningTools.tsx and the Dashboard / ExpensesSheet
components), the bounded audit log (auditService), and the CSV
export/import transcoder (ExpensesSheet).  JavaScript numbers are
modelled as rationals; JavaScript strings as Lean strings; optional
fields as Option.  Environment builtins (number-to-string formatting,
parseFloat) are modelled as explicit function parameters, with concrete
model instances supplied for evaluation.
-/

/-! ## Data model (src/types.ts) -/

/-- Transaction record (interface Expense in src/types.ts).  The
optional currency tag is an Option; a missing tag defaults to the
profile currency at the use sites, exactly as the source writes
e.currency or profile.currency. -/
structure Expense where
  id : String
  name : String
  amount : ℚ
  category : String
  date : String
  currency : Option String
deriving DecidableEq

/-- Savings goal record (interface SavingsGoal in src/types.ts). -/
structure SavingsGoal where
  id : String
  name : String
  targetAmount : ℚ
  savedAmount : ℚ
  deadline : String
  category : String
  icon : String
  color : String
deriving DecidableEq

/-- Audit log entry (interface AuditLogEntry in auditService). -/
structure AuditLogEntry where
  timestamp : String
  action : String
  details : Option String
deriving DecidableEq

/-! ## Currency normalizer (src/constants.ts) -/

/-- The static exchange-rate table EXCHANGE_RATES_TO_USD from
src/constants.ts, kept verbatim as decimal rationals. -/
def EXCHANGE_RATES_TO_USD : List (String × ℚ) :=
  [("USD", 1), ("EUR", 1.08), ("GBP", 1.27), ("INR", 0.012),
   ("JPY", 0.0067), ("CAD", 0.74), ("AUD", 0.66), ("CNY", 0.14),
   ("SGD", 0.74), ("CHF", 1.13), ("HKD", 0.13), ("NZD", 0.61),
   ("SEK", 0.096), ("KRW", 0.00075), ("MXN", 0.059), ("BRL", 0.20),
   ("RUB", 0.011), ("ZAR", 0.053), ("TRY", 0.031), ("AED", 0.27),
   ("SAR", 0.27)]

/-- First-match association lookup, the semantics of indexing a
JavaScript record object by key. -/
def assocLookup {β : Type} (c : String) : List (String × β) → Option β
  | [] => none
  | (k, v) :: t => if k = c then some v else assocLookup c t

/-- Rate lookup EXCHANGE_RATES_TO_USD[code]. -/
def lookupRate (c : String) : Option ℚ :=
  assocLookup c EXCHANGE_RATES_TO_USD

/-- The JavaScript expression (x or-else 1) as applied to a looked-up
rate: undefined and 0 are both falsy and yield 1. -/
def jsOrOne : Option ℚ → ℚ
  | none => 1
  | some r => if r = 0 then 1 else r

/-- convertCurrency from src/constants.ts: identity when the codes
match, otherwise route through the base unit using the two looked-up
rates, each defaulted by the falsy-or to 1. -/
def convertCurrency (amount : ℚ) (fromCurrency toCurrency : String) : ℚ :=
  if fromCurrency = toCurrency then amount
  else
    let fromRate := jsOrOne (lookupRate fromCurrency)
    let toRate := jsOrOne (lookupRate toCurrency)
    let inUSD := amount * fromRate
    inUSD / toRate

/-- Effective currency of a transaction: the JavaScript expression
(e.currency or-else profile.currency), where the empty string is also
falsy. -/
def effCurrency (e : Expense) (profileCurrency : String) : String :=
  match e.currency with
  | none => profileCurrency
  | some c => if c = "" then profileCurrency else c

/-! ## Expense aggregation (Dashboard, ExpensesSheet, PlanningTools) -/

/-- Per-category spend as computed in the Dashboard budget section:
filter by category, then sum the amounts converted from each
transaction currency into the profile currency. -/
def dashboardCategorySpend (profileCurrency : String) (expenses : List Expense)
    (category : String) : ℚ :=
  (expenses.filter (fun e => e.category == category)).foldl
    (fun sum e => sum + convertCurrency e.amount (effCurrency e profileCurrency) profileCurrency) 0

/-- Per-category spend as computed in the ExpensesSheet budget manager:
filter by category, then sum the raw amounts with no currency
conversion. -/
def sheetCategorySpend (expenses : List Expense) (category : String) : ℚ :=
  (expenses.filter (fun e => e.category == category)).foldl
    (fun sum e => sum + e.amount) 0

/-- Total monthly expenses as computed in PlanningTools: sum of raw
amounts with no currency conversion; this figure feeds the savings and
SIP projection numbers of that screen. -/
def planningTotalMonthlyExpenses (expenses : List Expense) : ℚ :=
  expenses.foldl (fun acc e => acc + e.amount) 0

/-- Total monthly expenses as computed in the Dashboard: sum of the
amounts converted into the profile currency. -/
def dashboardTotalMonthlyExpenses (profileCurrency : String)
    (expenses : List Expense) : ℚ :=
  expenses.foldl
    (fun acc e => acc + convertCurrency e.amount (effCurrency e profileCurrency) profileCurrency) 0

/-! ## Budget and goal evaluation -/

/-- Budget usage percentage, common to Dashboard and ExpensesSheet:
spend over limit times 100 when a positive limit is set, else 0. -/
def budgetPercentage (spent budget : ℚ) : ℚ :=
  if budget > 0 then spent / budget * 100 else 0

/-- Displayed goal progress from PlanningTools: the saved-over-target
ratio as a percentage, clamped above at 100. -/
def goalProgress (g : SavingsGoal) : ℚ :=
  min (g.savedAmount / g.targetAmount * 100) 100

/-- handleUpdateGoalProgress from PlanningTools: map over the goals and
overwrite the saved amount of every goal with the given id; no
clamping of any kind is applied to the stored value. -/
def updateGoalProgress (goals : List SavingsGoal) (id : String) (amount : ℚ) :
    List SavingsGoal :=
  goals.map fun g => if g.id = id then { g with savedAmount := amount } else g

/-- Calendar dates at month precision; the month arithmetic of
calculateMonthlyNeed only reads getFullYear and getMonth of the two
Date objects, so a date is modelled by that pair. -/
structure MonthDate where
  year : ℤ
  month : ℤ
deriving DecidableEq

/-- Whole-calendar-month difference used by calculateMonthlyNeed:
difference of year times 12 plus month, not day-precise. -/
def monthsBetween (today deadline : MonthDate) : ℤ :=
  (deadline.year - today.year) * 12 + (deadline.month - today.month)

/-- calculateMonthlyNeed from PlanningTools.  An absent deadline (the
empty string in the source) is the none case and yields 0; a deadline
that is due or past yields 0; otherwise the outstanding amount, floored
at 0, is divided evenly over the remaining months. -/
def calculateMonthlyNeed (target saved : ℚ) (today : MonthDate)
    (deadline : Option MonthDate) : ℚ :=
  match deadline with
  | none => 0
  | some d =>
    let months := monthsBetween today d
    if months ≤ 0 then 0
    else max 0 (target - saved) / (months : ℚ)

/-- New-goal form state in PlanningTools.  The numeric fields come from
parseFloat of text inputs, so NaN (an empty or unparsable field) is
modelled as none. -/
structure GoalForm where
  name : String
  targetAmount : Option ℚ
  savedAmount : Option ℚ
  deadline : String
  category : String

/-- The GOAL_CATEGORIES colors from PlanningTools, keyed by category
id; the find-or-index-7 fallback of the source is the getD below. -/
def GOAL_CATEGORIES : List (String × String) :=
  [("Emergency", "bg-red-500"), ("Travel", "bg-blue-500"),
   ("Home", "bg-indigo-500"), ("Vehicle", "bg-orange-500"),
   ("Education", "bg-green-500"), ("Gadget", "bg-purple-500"),
   ("Investment", "bg-teal-500"), ("Other", "bg-gray-500")]

/-- handleAddGoal from PlanningTools: bail out when the name is falsy
(empty) or the target amount is falsy (NaN, i.e. none, or 0); otherwise
append the new goal built from the form.  The fresh identifier
(Date.now in the source) is a parameter. -/
def handleAddGoal (newId : String) (form : GoalForm)
    (goals : List SavingsGoal) : List SavingsGoal :=
  if form.name = "" ∨ form.targetAmount = none ∨ form.targetAmount = some 0 then goals
  else
    goals ++ [{ id := newId
              , name := form.name
              , targetAmount := form.targetAmount.getD 0
              , savedAmount := form.savedAmount.getD 0
              , deadline := form.deadline
              , category := form.category
              , icon := if form.category = "" then "Other" else form.category
              , color := (assocLookup form.category GOAL_CATEGORIES).getD "bg-gray-500" }]

/-! ## Tax estimator (PlanningTools) -/

/-- The simplified progressive tax computation of PlanningTools: the
three sequential if blocks over a mutable remainder are unfolded into
lets. -/
def computeTax (income : ℚ) : ℚ :=
  let tax1 : ℚ := if income > 80000 then (income - 80000) * 0.30 else 0
  let rem1 : ℚ := if income > 80000 then 80000 else income
  let tax2 : ℚ := if rem1 > 40000 then (rem1 - 40000) * 0.20 else 0
  let rem2 : ℚ := if rem1 > 40000 then 40000 else rem1
  let tax3 : ℚ := if rem2 > 10000 then (rem2 - 10000) * 0.10 else 0
  tax1 + tax2 + tax3

/-- Effective tax rate from PlanningTools: tax over income as a
percentage, 0 when income is not positive. -/
def effectiveRate (income : ℚ) : ℚ :=
  if income > 0 then computeTax income / income * 100 else 0

/-! ## Audit log (auditService) -/

/-- logAction from the audit service: prepend the new entry and keep
the first 100 entries of the result. -/
def logAction (e : AuditLogEntry) (logs : List AuditLogEntry) : List AuditLogEntry :=
  (e :: logs).take 100

/-- A sequence of logAction insertions applied oldest first. -/
def runLogActions (entries : List AuditLogEntry) (logs : List AuditLogEntry) :
    List AuditLogEntry :=
  entries.foldl (fun acc e => logAction e acc) logs

/-! ## CSV transcoder (ExpensesSheet handleExport / handleImport)

Text is processed through the underlying character lists.  The
JavaScript builtins String(number) and parseFloat are modelled as
explicit parameters printAmt and parseAmt; concrete model instances for
integer numerals are provided below for evaluation. -/

/-- Whitespace set of the JavaScript String.prototype.trim, restricted
to the characters that can occur in this data path. -/
def isWs (c : Char) : Bool :=
  c == ' ' || c == '\t' || c == '\n' || c == '\r'

/-- Leading-whitespace removal. -/
def trimStartL (l : List Char) : List Char := l.dropWhile isWs

/-- Trailing-whitespace removal. -/
def trimEndL (l : List Char) : List Char := (l.reverse.dropWhile isWs).reverse

/-- The JavaScript trim: leading then trailing whitespace removal. -/
def jsTrimL (l : List Char) : List Char := trimEndL (trimStartL l)

/-- String-level JavaScript trim. -/
def jsTrim (s : String) : String := ⟨jsTrimL s.data⟩

/-- Number of double-quote characters in a character list. -/
def countQuote (l : List Char) : ℕ := l.countP (fun c => c == '"')

/-- Worker for the delimiter-aware split: the import splits the line on
the regex comma-followed-by-an-even-number-of-quotes, i.e. a comma is a
delimiter exactly when the remainder of the line contains an even
number of double quotes. -/
def csvSplitAux : List Char → List Char → List (List Char)
  | [], acc => [acc.reverse]
  | c :: rest, acc =>
    if c = ',' ∧ countQuote rest % 2 = 0 then acc.reverse :: csvSplitAux rest []
    else csvSplitAux rest (c :: acc)

/-- The delimiter-aware split of handleImport applied to a string. -/
def csvSplit (s : String) : List String :=
  (csvSplitAux s.data []).map fun l => ⟨l⟩

/-- CSV quote escaping of handleExport: every double quote of the
description is doubled. -/
def escQuotes : List Char → List Char
  | [] => []
  | c :: t => if c = '"' then '"' :: '"' :: escQuotes t else c :: escQuotes t

/-- CSV quote unescaping of handleImport: every doubled double quote
collapses to a single one, scanning left to right. -/
def unescQuotes : List Char → List Char
  | [] => []
  | [c] => [c]
  | c :: d :: t =>
    if c = '"' ∧ d = '"' then '"' :: unescQuotes t
    else c :: unescQuotes (d :: t)

/-- Removal of one leading double quote, first half of the regex
caret-quote-or-quote-dollar replacement of handleImport. -/
def stripLeadQuote : List Char → List Char
  | '"' :: t => t
  | l => l

/-- Removal of one trailing double quote, second half of the same
replacement. -/
def stripTrailQuote (l : List Char) : List Char :=
  match l.reverse with
  | '"' :: t => t.reverse
  | _ => l

/-- Newline split worker, the semantics of String.prototype.split on a
single separator character. -/
def splitCharAux (sep : Char) : List Char → List Char → List (List Char)
  | [], acc => [acc.reverse]
  | c :: rest, acc =>
    if c = sep then acc.reverse :: splitCharAux sep rest []
    else splitCharAux sep rest (c :: acc)

/-- text.split of one separator character at string level. -/
def splitNl (s : String) : List String :=
  (splitCharAux '\n' s.data []).map fun l => ⟨l⟩

/-- Array.prototype.join with a one-character separator. -/
def joinWith (sep : Char) : List (List Char) → List Char
  | [] => []
  | [x] => x
  | x :: y :: t => x ++ sep :: joinWith sep (y :: t)

/-- join of strings with a one-character separator. -/
def joinChar (sep : Char) (l : List String) : String :=
  ⟨joinWith sep (l.map String.data)⟩

/-- ASCII lower-casing of one character, the fragment of
String.prototype.toLowerCase exercised by the header check. -/
def lowerChar (c : Char) : Char :=
  if c = 'A' then 'a' else if c = 'B' then 'b' else if c = 'C' then 'c'
  else if c = 'D' then 'd' else if c = 'E' then 'e' else if c = 'F' then 'f'
  else if c = 'G' then 'g' else if c = 'H' then 'h' else if c = 'I' then 'i'
  else if c = 'J' then 'j' else if c = 'K' then 'k' else if c = 'L' then 'l'
  else if c = 'M' then 'm' else if c = 'N' then 'n' else if c = 'O' then 'o'
  else if c = 'P' then 'p' else if c = 'Q' then 'q' else if c = 'R' then 'r'
  else if c = 'S' then 's' else if c = 'T' then 't' else if c = 'U' then 'u'
  else if c = 'V' then 'v' else if c = 'W' then 'w' else if c = 'X' then 'x'
  else if c = 'Y' then 'y' else if c = 'Z' then 'z' else c

/-- Whether pat occurs at the start of s. -/
def startsWithL : List Char → List Char → Bool
  | [], _ => true
  | _ :: _, [] => false
  | p :: ps, c :: cs => p == c && startsWithL ps cs

/-- Whether pat occurs anywhere inside s, the semantics of
String.prototype.includes. -/
def containsSub (pat : List Char) : List Char → Bool
  | [] => startsWithL pat []
  | c :: cs => startsWithL pat (c :: cs) || containsSub pat cs

/-- The export header row of handleExport in the ExpensesSheet. -/
def exportHeader : String := "Date,Description,Category,Amount,Currency"

/-- One exported CSV row: date, the quoted and quote-doubled
description, category, printed amount, effective currency, joined by
commas. -/
def exportRow (profileCurrency : String) (printAmt : ℚ → String) (e : Expense) : String :=
  ⟨e.date.data ++ [','] ++ ['"'] ++ escQuotes e.name.data ++ ['"'] ++ [','] ++
    e.category.data ++ [','] ++ (printAmt e.amount).data ++ [','] ++
    (effCurrency e profileCurrency).data⟩

/-- handleExport of the ExpensesSheet: header row followed by one row
per transaction, joined with newlines. -/
def handleExport (printAmt : ℚ → String) (profileCurrency : String)
    (es : List Expense) : String :=
  joinChar '\n' (exportHeader :: es.map (exportRow profileCurrency printAmt))

/-- One-line parse of handleImport: trim the line, skip it when empty,
split on delimiter commas, require at least four fields, trim date and
category, unquote and unescape and trim the description, parse the
amount with the parseFloat model, default an absent or blank fifth
field to the profile currency, and drop the row when the amount fails
to parse or the date is empty. -/
def parseLine (parseAmt : String → Option ℚ) (profileCurrency : String)
    (newId : String) (rawLine : String) : Option Expense :=
  let line := jsTrim rawLine
  if line = "" then none
  else
    let parts := csvSplit line
    if 4 ≤ parts.length then
      let date := jsTrim (parts.getD 0 "")
      let name := jsTrim ⟨unescQuotes (stripTrailQuote (stripLeadQuote (parts.getD 1 "").data))⟩
      let category := jsTrim (parts.getD 2 "")
      let currency :=
        match parts[4]? with
        | none => profileCurrency
        | some c => if jsTrim c = "" then profileCurrency else jsTrim c
      match parseAmt (parts.getD 3 "") with
      | none => none
      | some amount =>
        if date = "" then none
        else some { id := newId, name := name, amount := amount
                  , category := if category = "" then "Other" else category
                  , date := date, currency := some currency }
    else none

/-- handleImport of the ExpensesSheet: split the text into lines, skip
the first line when its lower-cased content contains the token date,
then collect the successfully parsed rows; fresh identifiers are a
function of the row position. -/
def handleImport (parseAmt : String → Option ℚ) (mkId : ℕ → String)
    (profileCurrency : String) (text : String) : List Expense :=
  let lines := splitNl text
  let startIdx := if containsSub "date".data ((lines.getD 0 "").data.map lowerChar) then 1 else 0
  let dataLines := lines.drop startIdx
  dataLines.enum.filterMap fun p => parseLine parseAmt profileCurrency (mkId p.1) p.2

/-- Import summary message shown by handleImport, a function of the
aggregate imported count and of nothing else. -/
def importAlert (parseAmt : String → Option ℚ) (mkId : ℕ → String)
    (profileCurrency : String) (text : String) : String :=
  let newExpenses := handleImport parseAmt mkId profileCurrency text
  if 0 < newExpenses.length then
    "Successfully imported " ++ toString newExpenses.length ++ " transactions."
  else "No valid transactions found in file."

/-- The same message as a function of a bare count. -/
def alertOfCount (n : ℕ) : String :=
  if 0 < n then "Successfully imported " ++ toString n ++ " transactions."
  else "No valid transactions found in file."

/-- Position of one character in a list, the numeric value of a digit
when run over the decimal digit characters. -/
def charIdx (c : Char) : List Char → Option ℕ
  | [] => none
  | d :: t => if d = c then some 0 else (charIdx c t).map Nat.succ

/-- Digit value of one character. -/
def digitVal (c : Char) : Option ℕ :=
  charIdx c ['0', '1', '2', '3', '4', '5', '6', '7', '8', '9']

/-- Decimal value of a digit list. -/
def digitsValAux : List Char → ℕ → Option ℕ
  | [], acc => some acc
  | c :: t, acc =>
    match digitVal c with
    | none => none
    | some d => digitsValAux t (acc * 10 + d)

/-- Concrete model of parseFloat for plain integer numerals, used to
instantiate the abstract parseAmt parameter on concrete inputs. -/
def parseAmtModel (s : String) : Option ℚ :=
  match s.data with
  | [] => none
  | '-' :: t => if t.isEmpty then none else (digitsValAux t 0).map fun n => -(n : ℚ)
  | l => (digitsValAux l 0).map fun n => (n : ℚ)

/-- The expected row produced by a round trip: same description,
amount, category and date, the currency tag resolved to the effective
currency, and a fresh position-derived identifier. -/
def roundTripExpense (profileCurrency : String) (mkId : ℕ → String)
    (i : ℕ) (e : Expense) : Expense :=
  { id := mkId i, name := e.name, amount := e.amount, category := e.category
  , date := e.date, currency := some (effCurrency e profileCurrency) }

/-- Concrete failing input for the currency-aggregation claim: one
transaction of 100 tagged EUR under a USD profile. -/
def c1SampleExpense : Expense :=
  { id := "1", name := "Lunch", amount := 100, category := "Food"
  , date := "2024-01-05", currency := some "EUR" }

/-- Cleanliness conditions on one transaction under which the CSV round
trip is faithful: the description has no newline and no surrounding
whitespace; date, category and effective currency are nonempty, free of
the delimiter characters that the export does not quote, and trim
stable; and the printed amount is delimiter free and parses back to the
amount. -/
def CleanExpense (pc : String) (printAmt : ℚ → String)
    (parseAmt : String → Option ℚ) (e : Expense) : Prop :=
  ('\n' ∉ e.name.data) ∧ (jsTrim e.name = e.name) ∧
  (e.date ≠ "") ∧ (',' ∉ e.date.data) ∧ ('\n' ∉ e.date.data) ∧
  (jsTrim e.date = e.date) ∧
  (e.category ≠ "") ∧ (',' ∉ e.category.data) ∧ ('"' ∉ e.category.data) ∧
  ('\n' ∉ e.category.data) ∧ (jsTrim e.category = e.category) ∧
  (effCurrency e pc ≠ "") ∧ (',' ∉ (effCurrency e pc).data) ∧
  ('"' ∉ (effCurrency e pc).data) ∧ ('\n' ∉ (effCurrency e pc).data) ∧
  (jsTrim (effCurrency e pc) = effCurrency e pc) ∧
  (',' ∉ (printAmt e.amount).data) ∧ ('"' ∉ (printAmt e.amount).data) ∧
  ('\n' ∉ (printAmt e.amount).data) ∧
  (parseAmt (printAmt e.amount) = some e.amount)

/-- Concrete clean transaction for the round-trip evaluation: the
description holds an embedded comma and embedded double quotes. -/
def c4WitnessExpense : Expense :=
  { id := "7", name := "Lunch, \"big\"", amount := 10, category := "Food"
  , date := "2023-01-01", currency := some "USD" }

/-- Concrete transaction whose description carries leading whitespace,
which the import trims away. -/
def c4SpacedExpense : Expense :=
  { id := "1", name := " a", amount := 10, category := "Food"
  , date := "2023-01-01", currency := some "USD" }


/-! ## Helper lemmas -/

theorem exchange_rates_ne_zero : ∀ p ∈ EXCHANGE_RATES_TO_USD, p.2 ≠ 0 := by
  intro p hp
  fin_cases hp <;> norm_num

theorem assocLookup_mem {β : Type} (c : String) (l : List (String × β)) (b : β)
    (h : assocLookup c l = some b) : ∃ k, (k, b) ∈ l := by
  induction l with
  | nil => simp [assocLookup] at h
  | cons p t ih =>
    obtain ⟨k, v⟩ := p
    by_cases hk : k = c
    · refine ⟨k, ?_⟩
      simp only [assocLookup, if_pos hk] at h
      obtain rfl : v = b := by simpa using h
      exact List.mem_cons_self _ _
    · simp only [assocLookup, if_neg hk] at h
      obtain ⟨k', hk'⟩ := ih h
      exact ⟨k', List.mem_cons_of_mem _ hk'⟩

theorem jsOrOne_lookupRate (c : String) :
    jsOrOne (lookupRate c) = (lookupRate c).getD 1 := by
  cases h : lookupRate c with
  | none => simp [jsOrOne]
  | some r =>
    obtain ⟨k, hk⟩ := assocLookup_mem c _ r h
    have hr : r ≠ 0 := exchange_rates_ne_zero (k, r) hk
    simp [jsOrOne, hr]

/-! ## Claim theorems -/

/-- C1: the claim states that every per-category spend compared against
a budget limit and the total-expenses figure feeding the savings and
projection calculations are sums of currency-normalized amounts.  The
Dashboard versions are, but the ExpensesSheet budget-manager spend and
the PlanningTools total sum raw amounts: on a 100 EUR transaction under
a USD profile the normalized sums are 108 while those two figures stay
100. -/
theorem claim_c1_unconverted_sums :
    dashboardCategorySpend "USD" [c1SampleExpense] "Food" = 108 ∧
    sheetCategorySpend [c1SampleExpense] "Food" = 100 ∧
    planningTotalMonthlyExpenses [c1SampleExpense] = 100 ∧
    dashboardTotalMonthlyExpenses "USD" [c1SampleExpense] = 108 ∧
    sheetCategorySpend [c1SampleExpense] "Food"
      ≠ dashboardCategorySpend "USD" [c1SampleExpense] "Food" := by
  have hconv : convertCurrency 100 "EUR" "USD" = 108 := by
    unfold convertCurrency
    rw [if_neg (by decide : ¬ ("EUR" : String) = "USD")]
    show 100 * jsOrOne (lookupRate "EUR") / jsOrOne (lookupRate "USD") = 108
    rw [show lookupRate "EUR" = some 1.08 from rfl,
        show lookupRate "USD" = some 1 from rfl]
    norm_num [jsOrOne]
  have hd : dashboardCategorySpend "USD" [c1SampleExpense] "Food"
      = 0 + convertCurrency 100 "EUR" "USD" := rfl
  have hs : sheetCategorySpend [c1SampleExpense] "Food" = 0 + 100 := rfl
  have hp : planningTotalMonthlyExpenses [c1SampleExpense] = 0 + 100 := rfl
  have ht : dashboardTotalMonthlyExpenses "USD" [c1SampleExpense]
      = 0 + convertCurrency 100 "EUR" "USD" := rfl
  refine ⟨?_, ?_, ?_, ?_, ?_⟩
  · rw [hd, hconv]; norm_num
  · rw [hs]; norm_num
  · rw [hp]; norm_num
  · rw [ht, hconv]; norm_num
  · rw [hd, hs, hconv]; norm_num

/-- C2: convertCurrency returns the amount unchanged when the codes
coincide, and otherwise amount times source rate over target rate,
where a code absent from the table contributes rate 1. -/
theorem claim_c2_convert_currency (amount : ℚ) (f t : String) :
    (f = t → convertCurrency amount f t = amount) ∧
    (f ≠ t → convertCurrency amount f t
        = amount * ((lookupRate f).getD 1) / ((lookupRate t).getD 1)) := by
  constructor
  · intro h
    simp [convertCurrency, h]
  · intro h
    rw [convertCurrency, if_neg h]
    show amount * jsOrOne (lookupRate f) / jsOrOne (lookupRate t) = _
    rw [jsOrOne_lookupRate, jsOrOne_lookupRate]

theorem claim_c2_convert_currency_witness :
    (convertCurrency 5 "USD" "USD" = 5) ∧
    (convertCurrency (-3) "EUR" "GBP"
      = (-3) * ((lookupRate "EUR").getD 1) / ((lookupRate "GBP").getD 1)) :=
  ⟨(claim_c2_convert_currency 5 "USD" "USD").1 rfl,
   (claim_c2_convert_currency (-3) "EUR" "GBP").2 (by decide)⟩

/-- C3 counterexample: at total annual income 50000 the code computes a
tax of 5000 (the slice above 40000 at 20 percent plus the slice from
10000 to 40000 at 10 percent), not the 10000 and 20 percent effective
rate the claim states. -/
theorem claim_c3_tax_counterexample :
    ¬ (computeTax 50000 = 10000 ∧ effectiveRate 50000 = 20) := by
  intro h
  have h1 := h.1
  rw [show computeTax 50000 = 5000 from by unfold computeTax; norm_num] at h1
  norm_num at h1

/-- C3 amended: for total annual income 50000 the progressive brackets
of the code yield an estimated tax of 5000 and an effective rate of 10
percent. -/
theorem claim_c3_tax_amended :
    computeTax 50000 = 5000 ∧ effectiveRate 50000 = 10 := by
  have h : computeTax 50000 = 5000 := by unfold computeTax; norm_num
  refine ⟨h, ?_⟩
  rw [effectiveRate, if_pos (by norm_num : (50000:ℚ) > 0), h]
  norm_num

/-- C5: with a deadline present, the required monthly contribution is 0
when the whole-month difference is zero or negative, and otherwise the
outstanding amount floored at 0 divided by the month difference; a goal
of 5000 with 1000 saved and a deadline exactly 8 months out needs 500 a
month. -/
theorem claim_c5_monthly_need (target saved : ℚ) (today d : MonthDate) :
    (monthsBetween today d ≤ 0 →
      calculateMonthlyNeed target saved today (some d) = 0) ∧
    (0 < monthsBetween today d →
      calculateMonthlyNeed target saved today (some d)
        = max 0 (target - saved) / (monthsBetween today d : ℚ)) ∧
    calculateMonthlyNeed 5000 1000 today (some ⟨today.year, today.month + 8⟩) = 500 := by
  refine ⟨?_, ?_, ?_⟩
  · intro h
    simp [calculateMonthlyNeed, h]
  · intro h
    simp [calculateMonthlyNeed, not_le.mpr h]
  · have hm : monthsBetween today ⟨today.year, today.month + 8⟩ = 8 := by
      simp [monthsBetween]
    simp only [calculateMonthlyNeed, hm]
    norm_num

theorem claim_c5_monthly_need_witness :
    (monthsBetween ⟨2025, 3⟩ ⟨2025, 1⟩ ≤ 0 ∧
      calculateMonthlyNeed 100 0 ⟨2025, 3⟩ (some ⟨2025, 1⟩) = 0) ∧
    (0 < monthsBetween ⟨2025, 3⟩ ⟨2026, 4⟩ ∧
      calculateMonthlyNeed 100 0 ⟨2025, 3⟩ (some ⟨2026, 4⟩)
        = max 0 (100 - 0) / (monthsBetween ⟨2025, 3⟩ ⟨2026, 4⟩ : ℚ)) :=
  ⟨⟨by decide, (claim_c5_monthly_need 100 0 ⟨2025, 3⟩ ⟨2025, 1⟩).1 (by decide)⟩,
   ⟨by decide, (claim_c5_monthly_need 100 0 ⟨2025, 3⟩ ⟨2026, 4⟩).2.1 (by decide)⟩⟩

/-- C6: the displayed goal progress is the clamped ratio and never
exceeds 100, while a quick-add write stores the previous saved amount
plus the step with no upper bound. -/
theorem claim_c6_goal_progress :
    (∀ g : SavingsGoal, goalProgress g ≤ 100) ∧
    (∀ (goals : List SavingsGoal) (i : ℕ) (hi : i < goals.length) (step : ℚ),
      (updateGoalProgress goals goals[i].id (goals[i].savedAmount + step))[i]?.map
          SavingsGoal.savedAmount
        = some (goals[i].savedAmount + step)) := by
  constructor
  · intro g
    exact min_le_right _ _
  · intro goals i hi step
    rw [updateGoalProgress, List.getElem?_map, List.getElem?_eq_getElem hi]
    simp

theorem claim_c6_goal_progress_witness :
    ((0:ℕ) < 1) ∧
    (updateGoalProgress
        [{ id := "g1", name := "Trip", targetAmount := 5000, savedAmount := 4900
         , deadline := "", category := "Travel", icon := "Travel", color := "c" }]
        "g1" (4900 + 500))[0]?.map SavingsGoal.savedAmount = some (4900 + 500) :=
  ⟨by decide,
   claim_c6_goal_progress.2
     [{ id := "g1", name := "Trip", targetAmount := 5000, savedAmount := 4900
      , deadline := "", category := "Travel", icon := "Travel", color := "c" }]
     0 (by decide) 500⟩

/-- C7: the budget usage percentage is spend over limit times 100 for a
positive limit and exactly 0 when the limit is 0, whatever the
spend. -/
theorem claim_c7_budget_percentage (spent budget : ℚ) :
    (0 < budget → budgetPercentage spent budget = spent / budget * 100) ∧
    (budget = 0 → budgetPercentage spent budget = 0) := by
  constructor
  · intro h
    simp [budgetPercentage, h]
  · intro h
    simp [budgetPercentage, h]

theorem claim_c7_budget_percentage_witness :
    ((0:ℚ) < 4 ∧ budgetPercentage 3 4 = 3 / 4 * 100) ∧
    budgetPercentage 7 0 = 0 :=
  ⟨⟨by norm_num, (claim_c7_budget_percentage 3 4).1 (by norm_num)⟩,
   (claim_c7_budget_percentage 7 0).2 rfl⟩

/-- C8: after any nonempty sequence of logAction insertions from any
stored state, the log holds at most 100 entries, the newest insertion
sits at index 0, and the final state is the capped prepend of the last
entry. -/
theorem claim_c8_audit_log (logs es : List AuditLogEntry) (e : AuditLogEntry) :
    (runLogActions (es ++ [e]) logs).length ≤ 100 ∧
    (runLogActions (es ++ [e]) logs).head? = some e ∧
    runLogActions (es ++ [e]) logs = (e :: runLogActions es logs).take 100 := by
  have h : runLogActions (es ++ [e]) logs = (e :: runLogActions es logs).take 100 := by
    simp [runLogActions, List.foldl_append, logAction]
  refine ⟨?_, ?_, h⟩
  · rw [h, List.length_take]
    exact min_le_left _ _
  · rw [h]
    show ((e :: runLogActions es logs).take (99 + 1)).head? = some e
    rw [List.take_succ_cons]
    rfl

/-- C10: an empty name or a zero or NaN target makes handleAddGoal
return the goals unchanged; otherwise exactly one goal is appended and
its stored target amount is the nonzero form value, so the progress
division for goals created through the form is never by zero. -/
theorem claim_c10_add_goal (newId : String) (form : GoalForm)
    (goals : List SavingsGoal) :
    ((form.name = "" ∨ form.targetAmount = none ∨ form.targetAmount = some 0) →
      handleAddGoal newId form goals = goals) ∧
    (¬ (form.name = "" ∨ form.targetAmount = none ∨ form.targetAmount = some 0) →
      ∃ g, handleAddGoal newId form goals = goals ++ [g] ∧
        g.targetAmount = form.targetAmount.getD 0 ∧ g.targetAmount ≠ 0) := by
  constructor
  · intro h
    simp [handleAddGoal, h]
  · intro h
    rw [handleAddGoal, if_neg h]
    refine ⟨_, rfl, rfl, ?_⟩
    push_neg at h
    obtain ⟨-, h2, h3⟩ := h
    cases ht : form.targetAmount with
    | none => exact absurd ht h2
    | some tval =>
      simp only [ht, Option.getD_some]
      intro h0
      exact h3 (by rw [ht, h0])

theorem claim_c10_add_goal_witness :
    ∃ g, handleAddGoal "x" ⟨"Trip", some 5000, some 1000, "", "Travel"⟩ []
        = [] ++ [g] ∧
      g.targetAmount = (some (5000:ℚ)).getD 0 ∧ g.targetAmount ≠ 0 :=
  (claim_c10_add_goal "x" ⟨"Trip", some 5000, some 1000, "", "Travel"⟩ []).2
    (by
      push_neg
      refine ⟨by decide, by simp, ?_⟩
      simp only [ne_eq, Option.some.injEq]
      norm_num)

/-! ## CSV lemmas: counting, splitting, escaping -/

theorem countQuote_cons (c : Char) (t : List Char) :
    countQuote (c :: t) = countQuote t + if c = '"' then 1 else 0 := by
  by_cases hc : c = '"' <;> simp [countQuote, List.countP_cons, hc]

theorem countQuote_append (a b : List Char) :
    countQuote (a ++ b) = countQuote a + countQuote b := by
  simp [countQuote, List.countP_append]

theorem countQuote_eq_zero (l : List Char) (h : ∀ c ∈ l, c ≠ '"') :
    countQuote l = 0 := by
  simp only [countQuote, List.countP_eq_zero]
  intro a ha
  simpa using h a ha

theorem escQuotes_quote (t : List Char) :
    escQuotes ('"' :: t) = '"' :: '"' :: escQuotes t := by
  simp [escQuotes]

theorem escQuotes_other (c : Char) (t : List Char) (hc : c ≠ '"') :
    escQuotes (c :: t) = c :: escQuotes t := by
  simp [escQuotes, hc]

theorem countQuote_escQuotes (l : List Char) :
    countQuote (escQuotes l) = 2 * countQuote l := by
  induction l with
  | nil => rfl
  | cons c t ih =>
    by_cases hc : c = '"'
    · subst hc
      rw [escQuotes_quote, countQuote_cons, countQuote_cons, ih, countQuote_cons]
      simp
      omega
    · rw [escQuotes_other c t hc, countQuote_cons, ih, countQuote_cons]
      simp [hc]

theorem mem_escQuotes (c : Char) (hc : c ≠ '"') (l : List Char) :
    c ∈ escQuotes l ↔ c ∈ l := by
  induction l with
  | nil => simp [escQuotes]
  | cons d t ih =>
    by_cases hd : d = '"'
    · subst hd
      rw [escQuotes_quote]
      simp [ih, hc]
    · rw [escQuotes_other d t hd]
      simp [ih]

theorem csvSplitAux_append_no_comma (xs : List Char) (h : ∀ c ∈ xs, c ≠ ',') :
    ∀ (ys acc : List Char),
      csvSplitAux (xs ++ ys) acc = csvSplitAux ys (xs.reverse ++ acc) := by
  induction xs with
  | nil => intro ys acc; simp
  | cons c t ih =>
    intro ys acc
    have hc : c ≠ ',' := h c (List.mem_cons_self c t)
    have hcond : ¬ (c = ',' ∧ countQuote (t ++ ys) % 2 = 0) := fun hh => hc hh.1
    simp only [List.cons_append, csvSplitAux, List.append_eq, if_neg hcond]
    rw [ih (fun x hx => h x (List.mem_cons_of_mem c hx))]
    simp

theorem csvSplitAux_escQuotes (n : List Char) :
    ∀ (ys acc : List Char), countQuote ys % 2 = 1 →
      csvSplitAux (escQuotes n ++ ys) acc
        = csvSplitAux ys ((escQuotes n).reverse ++ acc) := by
  induction n with
  | nil => intro ys acc _; simp [escQuotes]
  | cons c t ih =>
    intro ys acc hmod
    by_cases hc : c = '"'
    · subst hc
      rw [escQuotes_quote]
      simp only [List.cons_append, csvSplitAux, List.append_eq]
      rw [if_neg (fun hh => absurd hh.1 (by decide)),
          if_neg (fun hh => absurd hh.1 (by decide))]
      rw [ih ys _ hmod]
      simp
    · rw [escQuotes_other c t hc]
      simp only [List.cons_append, csvSplitAux, List.append_eq]
      by_cases hcm : c = ','
      · subst hcm
        have hcond : ¬ (',' = ',' ∧ countQuote (escQuotes t ++ ys) % 2 = 0) := by
          rintro ⟨-, hz⟩
          rw [countQuote_append, countQuote_escQuotes] at hz
          omega
        rw [if_neg hcond, ih ys _ hmod]
        simp
      · have hcond : ¬ (c = ',' ∧ countQuote (escQuotes t ++ ys) % 2 = 0) :=
          fun hh => hcm hh.1
        rw [if_neg hcond, ih ys _ hmod]
        simp

theorem csvSplitAux_comma (ys acc : List Char) (h : countQuote ys % 2 = 0) :
    csvSplitAux (',' :: ys) acc = acc.reverse :: csvSplitAux ys [] := by
  simp [csvSplitAux, h]

theorem splitCharAux_append_no_sep (sep : Char) (xs : List Char) (h : sep ∉ xs) :
    ∀ (ys acc : List Char),
      splitCharAux sep (xs ++ ys) acc = splitCharAux sep ys (xs.reverse ++ acc) := by
  induction xs with
  | nil => intro ys acc; simp
  | cons c t ih =>
    intro ys acc
    have hc : ¬ c = sep := by
      rintro rfl
      exact h (List.mem_cons_self _ _)
    simp only [List.cons_append, splitCharAux, List.append_eq, if_neg hc]
    rw [ih (fun hx => h (List.mem_cons_of_mem c hx))]
    simp

theorem splitCharAux_joinWith (sep : Char) (L : List (List Char))
    (h : ∀ l ∈ L, sep ∉ l) (hne : L ≠ []) :
    splitCharAux sep (joinWith sep L) [] = L := by
  induction L with
  | nil => exact absurd rfl hne
  | cons x t ih =>
    cases t with
    | nil =>
      have hx := splitCharAux_append_no_sep sep x (h x (List.mem_cons_self _ _)) [] []
      simpa [joinWith, splitCharAux] using hx
    | cons y t2 =>
      rw [show joinWith sep (x :: y :: t2) = x ++ sep :: joinWith sep (y :: t2) from rfl]
      rw [splitCharAux_append_no_sep sep x (h x (List.mem_cons_self _ _))]
      simp only [splitCharAux, if_pos rfl]
      rw [ih (fun l hl => h l (List.mem_cons_of_mem x hl)) (by simp)]
      simp

/-! ## CSV lemmas: unquoting and trimming -/

theorem unescQuotes_escQuotes (l : List Char) :
    unescQuotes (escQuotes l) = l := by
  induction l with
  | nil => simp [escQuotes, unescQuotes]
  | cons c t ih =>
    by_cases hc : c = '"'
    · subst hc
      rw [escQuotes_quote]
      rw [show unescQuotes ('"' :: '"' :: escQuotes t) = '"' :: unescQuotes (escQuotes t) from by
        simp [unescQuotes]]
      rw [ih]
    · rw [escQuotes_other c t hc]
      cases he : escQuotes t with
      | nil =>
        have ht : t = [] := by
          have := ih
          rw [he] at this
          simpa [unescQuotes] using this.symm
        rw [ht]
        simp [escQuotes, unescQuotes]
      | cons d rest =>
        rw [show unescQuotes (c :: d :: rest) = c :: unescQuotes (d :: rest) from by
          rw [unescQuotes]
          rw [if_neg (fun hh => hc hh.1)]]
        rw [← he, ih]

theorem stripTrailQuote_append_quote (l : List Char) :
    stripTrailQuote (l ++ ['"']) = l := by
  rw [stripTrailQuote]
  rw [show (l ++ ['"']).reverse = '"' :: l.reverse from by simp]
  simp

theorem length_dropWhile_le (p : Char → Bool) (l : List Char) :
    (l.dropWhile p).length ≤ l.length := by
  induction l with
  | nil => simp
  | cons a t ih =>
    rw [List.dropWhile_cons]
    split
    · exact Nat.le_succ_of_le ih
    · simp

theorem dropWhile_eq_self_head (p : Char → Bool) (c : Char) (t : List Char)
    (h : List.dropWhile p (c :: t) = c :: t) : p c = false := by
  by_cases hp : p c = true
  · rw [List.dropWhile_cons, if_pos hp] at h
    have hle := length_dropWhile_le p t
    rw [h] at hle
    simp at hle
  · simpa using hp

theorem dropWhile_eq_self_of_length (p : Char → Bool) (l : List Char)
    (h : (l.dropWhile p).length = l.length) : l.dropWhile p = l := by
  cases l with
  | nil => rfl
  | cons a t =>
    by_cases hp : p a = true
    · rw [List.dropWhile_cons, if_pos hp] at h
      have hle := length_dropWhile_le p t
      rw [h] at hle
      simp at hle
    · rw [List.dropWhile_cons, if_neg hp]

theorem trimEndL_eq_self_rev (l : List Char) (h : trimEndL l = l) :
    List.dropWhile isWs l.reverse = l.reverse := by
  have := congrArg List.reverse h
  rwa [trimEndL, List.reverse_reverse] at this

theorem jsTrimL_split (l : List Char) (h : jsTrimL l = l) :
    trimStartL l = l ∧ trimEndL l = l := by
  have h1 : (trimStartL l).length ≤ l.length := length_dropWhile_le _ _
  have h2 : (trimEndL (trimStartL l)).length ≤ (trimStartL l).length := by
    rw [trimEndL, List.length_reverse]
    calc (List.dropWhile isWs (trimStartL l).reverse).length
        ≤ (trimStartL l).reverse.length := length_dropWhile_le _ _
      _ = (trimStartL l).length := List.length_reverse _
  have hlen : (trimEndL (trimStartL l)).length = l.length := by
    rw [show trimEndL (trimStartL l) = jsTrimL l from rfl, h]
  have e1 : (trimStartL l).length = l.length :=
    le_antisymm h1 (by calc l.length = (trimEndL (trimStartL l)).length := hlen.symm
      _ ≤ (trimStartL l).length := h2)
  have hs : trimStartL l = l := dropWhile_eq_self_of_length _ _ e1
  refine ⟨hs, ?_⟩
  have := h
  rw [jsTrimL, hs] at this
  exact this

theorem trimStartL_append_of (xs ys : List Char) (hne : xs ≠ [])
    (hx : trimStartL xs = xs) : trimStartL (xs ++ ys) = xs ++ ys := by
  cases xs with
  | nil => exact absurd rfl hne
  | cons c t =>
    have hc : isWs c = false := dropWhile_eq_self_head _ _ _ hx
    simp [trimStartL, List.dropWhile_cons, hc]

theorem trimEndL_append_of (xs ys : List Char) (hne : ys ≠ [])
    (hy : trimEndL ys = ys) : trimEndL (xs ++ ys) = xs ++ ys := by
  have hrev : List.dropWhile isWs ys.reverse = ys.reverse := trimEndL_eq_self_rev ys hy
  cases hry : ys.reverse with
  | nil =>
    exact absurd (by simpa using congrArg List.reverse hry) hne
  | cons c t =>
    have hc : isWs c = false := by
      apply dropWhile_eq_self_head isWs c t
      rw [← hry]
      exact hrev
    rw [trimEndL, List.reverse_append, hry, List.cons_append, List.dropWhile_cons,
        if_neg (by simp [hc])]
    rw [← List.cons_append, ← hry, ← List.reverse_append, List.reverse_reverse]

theorem jsTrimL_eq_self (l : List Char) (h1 : trimStartL l = l) (h2 : trimEndL l = l) :
    jsTrimL l = l := by
  rw [jsTrimL, h1, h2]

theorem csvSplitAux_no_comma_final (u : List Char) (h : ∀ c ∈ u, c ≠ ',') :
    csvSplitAux u [] = [u] := by
  have hx := csvSplitAux_append_no_comma u h [] []
  simpa [csvSplitAux] using hx

theorem csvSplitAux_row (d n c a u : List Char)
    (hd : ∀ x ∈ d, x ≠ ',')
    (hcc : ∀ x ∈ c, x ≠ ',') (hcq : ∀ x ∈ c, x ≠ '"')
    (hac : ∀ x ∈ a, x ≠ ',') (haq : ∀ x ∈ a, x ≠ '"')
    (huc : ∀ x ∈ u, x ≠ ',') (huq : ∀ x ∈ u, x ≠ '"') :
    csvSplitAux
        (d ++ ',' :: '"' :: (escQuotes n ++ '"' :: ',' :: (c ++ ',' :: (a ++ ',' :: u)))) []
      = [d, '"' :: (escQuotes n ++ ['"']), c, a, u] := by
  have hcz : countQuote c = 0 := countQuote_eq_zero c hcq
  have haz : countQuote a = 0 := countQuote_eq_zero a haq
  have huz : countQuote u = 0 := countQuote_eq_zero u huq
  have h4 : countQuote (a ++ ',' :: u) % 2 = 0 := by
    simp [countQuote_append, countQuote_cons, haz, huz]
  have h3 : countQuote (c ++ ',' :: (a ++ ',' :: u)) % 2 = 0 := by
    simp [countQuote_append, countQuote_cons, hcz, haz, huz]
  have h1 : countQuote
      ('"' :: (escQuotes n ++ '"' :: ',' :: (c ++ ',' :: (a ++ ',' :: u)))) % 2 = 0 := by
    simp [countQuote_cons, countQuote_append, countQuote_escQuotes, hcz, haz, huz]
    omega
  have h2 : countQuote ('"' :: ',' :: (c ++ ',' :: (a ++ ',' :: u))) % 2 = 1 := by
    simp [countQuote_cons, countQuote_append, hcz, haz, huz]
  have huzm : countQuote u % 2 = 0 := by simp [huz]
  rw [csvSplitAux_append_no_comma d hd]
  rw [csvSplitAux_comma _ _ h1]
  rw [show csvSplitAux
        ('"' :: (escQuotes n ++ '"' :: ',' :: (c ++ ',' :: (a ++ ',' :: u)))) []
      = csvSplitAux (escQuotes n ++ '"' :: ',' :: (c ++ ',' :: (a ++ ',' :: u))) ['"'] from by
    simp only [csvSplitAux]
    rw [if_neg (fun hh => absurd hh.1 (by decide))]]
  rw [csvSplitAux_escQuotes n _ _ h2]
  rw [show csvSplitAux ('"' :: ',' :: (c ++ ',' :: (a ++ ',' :: u)))
        ((escQuotes n).reverse ++ ['"'])
      = csvSplitAux (',' :: (c ++ ',' :: (a ++ ',' :: u)))
        ('"' :: ((escQuotes n).reverse ++ ['"'])) from by
    simp only [csvSplitAux]
    rw [if_neg (fun hh => absurd hh.1 (by decide))]]
  rw [csvSplitAux_comma _ _ h3]
  rw [csvSplitAux_append_no_comma c hcc]
  rw [csvSplitAux_comma _ _ h4]
  rw [csvSplitAux_append_no_comma a hac]
  rw [csvSplitAux_comma _ _ huzm]
  rw [csvSplitAux_no_comma_final u huc]
  simp

theorem mk_data (s : String) : (⟨s.data⟩ : String) = s := rfl

theorem mkStr_eq_empty_iff (l : List Char) : (⟨l⟩ : String) = "" ↔ l = [] := by
  constructor
  · intro h
    exact congrArg String.data h
  · rintro rfl
    rfl

theorem not_mem_to_ne (c : Char) (l : List Char) (h : c ∉ l) :
    ∀ x ∈ l, x ≠ c := fun x hx he => h (he ▸ hx)

theorem data_ne_nil (s : String) (h : s ≠ "") : s.data ≠ [] := by
  intro hd
  exact h (by rw [← mk_data s, hd])

theorem jsTrim_data (s : String) (h : jsTrim s = s) : jsTrimL s.data = s.data :=
  congrArg String.data h

theorem jsTrimL_sandwich (xs m ys : List Char) (hx : xs ≠ [])
    (hxs : trimStartL xs = xs) (hy : ys ≠ []) (hys : trimEndL ys = ys) :
    jsTrimL (xs ++ (m ++ ys)) = xs ++ (m ++ ys) := by
  apply jsTrimL_eq_self
  · exact trimStartL_append_of xs (m ++ ys) hx hxs
  · rw [show xs ++ (m ++ ys) = (xs ++ m) ++ ys from (List.append_assoc xs m ys).symm]
    exact trimEndL_append_of (xs ++ m) ys hy hys

theorem csvSplit_exportRow (pc : String) (printAmt : ℚ → String)
    (parseAmt : String → Option ℚ) (e : Expense)
    (h : CleanExpense pc printAmt parseAmt e) :
    csvSplit (exportRow pc printAmt e)
      = [e.date, ⟨'"' :: (escQuotes e.name.data ++ ['"'])⟩, e.category,
         printAmt e.amount, effCurrency e pc] := by
  obtain ⟨-, -, -, hd2, -, -, -, hc2, hc3, -, -, -, hu2, hu3, -, -, ha2, ha3, -, -⟩ := h
  have hdata : (exportRow pc printAmt e).data
      = e.date.data ++ ',' :: '"' :: (escQuotes e.name.data ++ '"' :: ',' ::
          (e.category.data ++ ',' :: ((printAmt e.amount).data ++ ',' ::
            (effCurrency e pc).data))) := by
    simp [exportRow, List.append_assoc]
  show (csvSplitAux (exportRow pc printAmt e).data []).map (fun l => (⟨l⟩ : String)) = _
  rw [hdata,
      csvSplitAux_row e.date.data e.name.data e.category.data
        (printAmt e.amount).data (effCurrency e pc).data
        (not_mem_to_ne _ _ hd2)
        (not_mem_to_ne _ _ hc2) (not_mem_to_ne _ _ hc3)
        (not_mem_to_ne _ _ ha2) (not_mem_to_ne _ _ ha3)
        (not_mem_to_ne _ _ hu2) (not_mem_to_ne _ _ hu3)]
  simp [mk_data]

theorem exportRow_data (pc : String) (printAmt : ℚ → String) (e : Expense) :
    (exportRow pc printAmt e).data
      = e.date.data ++ ',' :: '"' :: (escQuotes e.name.data ++ '"' :: ',' ::
          (e.category.data ++ ',' :: ((printAmt e.amount).data ++ ',' ::
            (effCurrency e pc).data))) := by
  simp [exportRow, List.append_assoc]

theorem exportRow_ne_empty (pc : String) (printAmt : ℚ → String) (e : Expense) :
    exportRow pc printAmt e ≠ "" := by
  intro hemp
  have hd := congrArg String.data hemp
  rw [exportRow_data] at hd
  simp at hd

theorem jsTrim_exportRow (pc : String) (printAmt : ℚ → String)
    (parseAmt : String → Option ℚ) (e : Expense)
    (h : CleanExpense pc printAmt parseAmt e) :
    jsTrim (exportRow pc printAmt e) = exportRow pc printAmt e := by
  obtain ⟨-, -, hd1, -, -, hd4, -, -, -, -, -, hu1, -, -, -, hu4, -, -, -, -⟩ := h
  have hshape : (exportRow pc printAmt e).data
      = e.date.data ++ ((',' :: '"' :: (escQuotes e.name.data ++ '"' :: ',' ::
          (e.category.data ++ ',' :: ((printAmt e.amount).data ++ [','])))) ++
            (effCurrency e pc).data) := by
    rw [exportRow_data]
    simp [List.append_assoc]
  have hstab : jsTrimL (exportRow pc printAmt e).data = (exportRow pc printAmt e).data := by
    rw [hshape]
    exact jsTrimL_sandwich _ _ _
      (data_ne_nil _ hd1)
      ((jsTrimL_split _ (jsTrim_data _ hd4)).1)
      (data_ne_nil _ hu1)
      ((jsTrimL_split _ (jsTrim_data _ hu4)).2)
  show (⟨jsTrimL (exportRow pc printAmt e).data⟩ : String) = _
  rw [hstab, mk_data]

theorem parseLine_exportRow (pc : String) (printAmt : ℚ → String)
    (parseAmt : String → Option ℚ) (nid : String) (e : Expense)
    (h : CleanExpense pc printAmt parseAmt e) :
    parseLine parseAmt pc nid (exportRow pc printAmt e)
      = some { id := nid, name := e.name, amount := e.amount, category := e.category
             , date := e.date, currency := some (effCurrency e pc) } := by
  obtain ⟨hn1, hn2, hd1, hd2, hd3, hd4, hc1, hc2, hc3, hcn, hc4, hu1, hu2, hu3, hun,
    hu4, ha2, ha3, han, hamt⟩ := h
  have hclean : CleanExpense pc printAmt parseAmt e :=
    ⟨hn1, hn2, hd1, hd2, hd3, hd4, hc1, hc2, hc3, hcn, hc4, hu1, hu2, hu3, hun,
     hu4, ha2, ha3, han, hamt⟩
  simp only [parseLine]
  rw [jsTrim_exportRow pc printAmt parseAmt e hclean]
  rw [if_neg (exportRow_ne_empty pc printAmt e)]
  rw [csvSplit_exportRow pc printAmt parseAmt e hclean]
  rw [if_pos (by simp)]
  rw [show List.getD [e.date, (⟨'"' :: (escQuotes e.name.data ++ ['"'])⟩ : String),
        e.category, printAmt e.amount, effCurrency e pc] 0 "" = e.date from rfl]
  rw [show List.getD [e.date, (⟨'"' :: (escQuotes e.name.data ++ ['"'])⟩ : String),
        e.category, printAmt e.amount, effCurrency e pc] 1 ""
      = (⟨'"' :: (escQuotes e.name.data ++ ['"'])⟩ : String) from rfl]
  rw [show List.getD [e.date, (⟨'"' :: (escQuotes e.name.data ++ ['"'])⟩ : String),
        e.category, printAmt e.amount, effCurrency e pc] 2 "" = e.category from rfl]
  rw [show List.getD [e.date, (⟨'"' :: (escQuotes e.name.data ++ ['"'])⟩ : String),
        e.category, printAmt e.amount, effCurrency e pc] 3 "" = printAmt e.amount from rfl]
  rw [show [e.date, (⟨'"' :: (escQuotes e.name.data ++ ['"'])⟩ : String),
        e.category, printAmt e.amount, effCurrency e pc][4]?
      = some (effCurrency e pc) from rfl]
  rw [show stripLeadQuote (⟨'"' :: (escQuotes e.name.data ++ ['"'])⟩ : String).data
        = escQuotes e.name.data ++ ['"'] from rfl]
  rw [stripTrailQuote_append_quote, unescQuotes_escQuotes, mk_data, hn2, hd4, hc4, hamt]
  simp [hd1, hc1, hu1, hu4]

theorem newline_not_mem_exportRow (pc : String) (printAmt : ℚ → String)
    (parseAmt : String → Option ℚ) (e : Expense)
    (h : CleanExpense pc printAmt parseAmt e) :
    '\n' ∉ (exportRow pc printAmt e).data := by
  obtain ⟨hn1, -, -, -, hd3, -, -, -, -, hcn, -, -, -, -, hun, -, -, -, han, -⟩ := h
  rw [exportRow_data]
  intro hmem
  simp only [List.mem_append, List.mem_cons,
    mem_escQuotes '\n' (by decide)] at hmem
  rcases hmem with h | h | h | h | h | h | h | h | h | h | h
  · exact hd3 h
  · exact absurd h (by decide)
  · exact absurd h (by decide)
  · exact hn1 h
  · exact absurd h (by decide)
  · exact absurd h (by decide)
  · exact hcn h
  · exact absurd h (by decide)
  · exact han h
  · exact absurd h (by decide)
  · exact hun h

theorem splitNl_handleExport (printAmt : ℚ → String) (parseAmt : String → Option ℚ)
    (pc : String) (es : List Expense)
    (h : ∀ e ∈ es, CleanExpense pc printAmt parseAmt e) :
    splitNl (handleExport printAmt pc es)
      = exportHeader :: es.map (exportRow pc printAmt) := by
  have hno : ∀ l ∈ (exportHeader :: es.map (exportRow pc printAmt)).map String.data,
      '\n' ∉ l := by
    intro l hl
    simp only [List.map_cons, List.mem_cons, List.mem_map] at hl
    rcases hl with rfl | ⟨s, hs, rfl⟩
    · decide
    · obtain ⟨e, he, rfl⟩ := hs
      exact newline_not_mem_exportRow pc printAmt parseAmt e (h e he)
  show (splitCharAux '\n'
      (joinWith '\n' ((exportHeader :: es.map (exportRow pc printAmt)).map String.data))
      []).map (fun l => (⟨l⟩ : String)) = _
  rw [splitCharAux_joinWith '\n' _ hno (by simp)]
  rw [List.map_map]
  have hcomp : ((fun l => (⟨l⟩ : String)) ∘ String.data) = id := funext fun s => rfl
  rw [hcomp, List.map_id]

theorem enumFrom_map_filterMap {α β γ : Type} (f : α → β) (g : ℕ × β → Option γ)
    (hf : ℕ → α → γ) :
    ∀ (n : ℕ) (l : List α), (∀ i a, a ∈ l → g (i, f a) = some (hf i a)) →
      ((l.map f).enumFrom n).filterMap g = (l.enumFrom n).map fun p => hf p.1 p.2 := by
  intro n l
  induction l generalizing n with
  | nil => intro _; simp
  | cons a t ih =>
    intro hcond
    simp only [List.map_cons, List.enumFrom_cons, List.filterMap_cons,
      hcond n a (List.mem_cons_self a t), List.map_cons]
    rw [ih (n + 1) (fun i a ha => hcond i a (List.mem_cons_of_mem _ ha))]

/-- C4 amended: the CSV round trip is faithful row for row on every
transaction list whose rows are clean in the sense of CleanExpense:
descriptions hold no newline and no surrounding whitespace (embedded
commas and double quotes are fine); date, category and effective
currency are nonempty, free of unquoted delimiter characters, and trim
stable; and the printed amount parses back to the amount.  The import
of the export then reproduces every row: same description, category,
amount and date, and the currency tag resolved to the effective
currency. -/
theorem claim_c4_csv_roundtrip_amended (printAmt : ℚ → String)
    (parseAmt : String → Option ℚ) (mkId : ℕ → String) (pc : String)
    (es : List Expense) (h : ∀ e ∈ es, CleanExpense pc printAmt parseAmt e) :
    handleImport parseAmt mkId pc (handleExport printAmt pc es)
      = es.enum.map fun p => roundTripExpense pc mkId p.1 p.2 := by
  simp only [handleImport]
  rw [splitNl_handleExport printAmt parseAmt pc es h]
  rw [show (exportHeader :: es.map (exportRow pc printAmt)).getD 0 "" = exportHeader from rfl]
  rw [if_pos (by decide : containsSub "date".data (exportHeader.data.map lowerChar) = true)]
  rw [show (exportHeader :: es.map (exportRow pc printAmt)).drop 1
      = es.map (exportRow pc printAmt) from rfl]
  show ((es.map (exportRow pc printAmt)).enumFrom 0).filterMap
      (fun p => parseLine parseAmt pc (mkId p.1) p.2) = _
  rw [enumFrom_map_filterMap (exportRow pc printAmt)
      (fun p => parseLine parseAmt pc (mkId p.1) p.2)
      (fun i e => roundTripExpense pc mkId i e) 0 es
      (fun i a ha => parseLine_exportRow pc printAmt parseAmt (mkId i) a (h a ha))]
  rfl

/-- C4 counterexample: the round trip does not preserve every
description.  With a sound amount codec and an otherwise ordinary row,
a description with leading whitespace comes back trimmed: exporting the
single transaction named space-a and importing the result yields the
name a, not space-a. -/
theorem claim_c4_csv_roundtrip_counterexample :
    parseAmtModel ((fun _ : ℚ => "10") (10 : ℚ)) = some 10 ∧
    (handleImport parseAmtModel (fun _ => "id") "USD"
        (handleExport (fun _ => "10") "USD" [c4SpacedExpense])).map Expense.name
      = ["a"] ∧
    (handleImport parseAmtModel (fun _ => "id") "USD"
        (handleExport (fun _ => "10") "USD" [c4SpacedExpense])).map Expense.name
      ≠ [c4SpacedExpense.name] := by
  refine ⟨rfl, ?_, ?_⟩
  · decide
  · decide

theorem claim_c4_csv_roundtrip_amended_witness :
    (∀ e ∈ [c4WitnessExpense], CleanExpense "USD" (fun _ => "10") parseAmtModel e) ∧
    handleImport parseAmtModel (fun _ => "id") "USD"
        (handleExport (fun _ => "10") "USD" [c4WitnessExpense])
      = [c4WitnessExpense].enum.map fun p =>
          roundTripExpense "USD" (fun _ => "id") p.1 p.2 := by
  have hclean : ∀ e ∈ [c4WitnessExpense],
      CleanExpense "USD" (fun _ => "10") parseAmtModel e := by
    intro e he
    rw [List.mem_singleton] at he
    subst he
    refine ⟨?_, ?_, ?_, ?_, ?_, ?_, ?_, ?_, ?_, ?_, ?_, ?_, ?_, ?_, ?_, ?_, ?_, ?_, ?_, rfl⟩
    all_goals decide
  exact ⟨hclean,
    claim_c4_csv_roundtrip_amended (fun _ => "10") parseAmtModel (fun _ => "id")
      "USD" [c4WitnessExpense] hclean⟩

/-- C9: CSV import is total (the embedding is a plain function into a
transaction list); a line whose amount field does not parse or whose
trimmed date field is empty contributes no transaction; and the user
message is a function of the aggregate imported count alone. -/
theorem claim_c9_import_error_handling (parseAmt : String → Option ℚ)
    (mkId : ℕ → String) (pc nid : String) (text line : String) :
    ((parseAmt ((csvSplit (jsTrim line)).getD 3 "") = none ∨
        jsTrim ((csvSplit (jsTrim line)).getD 0 "") = "") →
      parseLine parseAmt pc nid line = none) ∧
    importAlert parseAmt mkId pc text
      = alertOfCount (handleImport parseAmt mkId pc text).length := by
  constructor
  · intro h
    simp only [parseLine]
    by_cases h0 : jsTrim line = ""
    · rw [if_pos h0]
    · rw [if_neg h0]
      by_cases h4 : 4 ≤ (csvSplit (jsTrim line)).length
      · rw [if_pos h4]
        rcases h with ha | hd
        · rw [ha]
        · cases hp : parseAmt ((csvSplit (jsTrim line)).getD 3 "") with
          | none => rfl
          | some a =>
            simp [hd]
            simpa [List.getD] using hd
      · rw [if_neg h4]
  · rfl

theorem claim_c9_import_error_handling_witness :
    (parseAmtModel ((csvSplit (jsTrim "2023-01-01,Lunch,Food,abc")).getD 3 "") = none ∨
      jsTrim ((csvSplit (jsTrim "2023-01-01,Lunch,Food,abc")).getD 0 "") = "") ∧
    parseLine parseAmtModel "USD" "id" "2023-01-01,Lunch,Food,abc" = none :=
  ⟨Or.inl (by decide),
   (claim_c9_import_error_handling parseAmtModel (fun _ => "id") "USD" "id"
      "" "2023-01-01,Lunch,Food,abc").1 (Or.inl (by decide))⟩
